import Mathlib

/-!
# Visit Record Analytics Engine — verification

Shallow embedding of `src/Health_Management_Dashboard.py`: the visit record
data model, the sidebar filter application, the five KPIs, the five grouped
aggregations and their argmax "insight" facts.  Numeric cells are modelled
as rationals; a cell that is missing in the source table (or that
`pd.to_numeric(..., errors="coerce")` turns into NaN) is `none`.
-/

namespace HealthDash

/-- One row of the normalized table (after column renaming and derivation
of `Month` / `BMI_Category`, lines 12–34 of the source).  Categorical
columns are plain strings; `Appointment_Date` may be unparseable (`NaT`),
modelled as `none` over abstract day indices; `Bill_Amount`,
`Satisfaction_Score` and `BMI` may be missing or non-numeric, modelled as
`none`. -/
structure Record where
  patientId : String
  appointmentDate : Option Nat
  doctor : String
  city : String
  gender : String
  diagnosis : String
  insuranceStatus : String
  status : String
  billAmount : Option ℚ
  satisfactionScore : Option ℚ
  followUpRequired : String
  bmi : Option ℚ
  deriving DecidableEq, Repr

/-- `Month` derived column (line 24): a pure function of the appointment
date; a null date yields the string rendering of `NaT`.  Calendar months of
the abstract day index are modelled as 31-day blocks. -/
def monthOf : Option Nat → String
  | none => "NaT"
  | some d => toString (d / 31)

/-- `bmi_bucket` (lines 27–32 of the source), verbatim: `pd.isna` guard
first, then the three strict upper-bound tests in order. -/
def bmi_bucket : Option ℚ → String
  | none => "Unknown"
  | some bmi =>
    if bmi < 18.5 then "Underweight"
    else if bmi < 25 then "Normal"
    else if bmi < 30 then "Overweight"
    else "Obesity"

/-- Derived `BMI_Category` column (line 34). -/
def bmiCategory (r : Record) : String := bmi_bucket r.bmi

/-- The five sidebar multiselects (lines 41–45): one list of selected
values per categorical column; an empty list is Python-falsy, so it leaves
that column unconstrained. -/
structure Selection where
  doctors : List String
  cities : List String
  genders : List String
  diagnoses : List String
  insurance : List String
  deriving DecidableEq, Repr

/-- The five sequential `if <list>: filtered_df = filtered_df[....isin(...)]`
steps (lines 47–52). -/
def applyFilters (R : List Record) (S : Selection) : List Record :=
  let d1 := if S.doctors.isEmpty then R else
    R.filter fun r => S.doctors.contains r.doctor
  let d2 := if S.cities.isEmpty then d1 else
    d1.filter fun r => S.cities.contains r.city
  let d3 := if S.genders.isEmpty then d2 else
    d2.filter fun r => S.genders.contains r.gender
  let d4 := if S.diagnoses.isEmpty then d3 else
    d3.filter fun r => S.diagnoses.contains r.diagnosis
  if S.insurance.isEmpty then d4 else
    d4.filter fun r => S.insurance.contains r.insuranceStatus

/-- The spec's description of the filter (§4.2): for each column with a
non-empty selection, the record's value must be a member; empty selections
impose no constraint; columns combine conjunctively. -/
def matchesSelection (S : Selection) (r : Record) : Bool :=
  (S.doctors.isEmpty || S.doctors.contains r.doctor) &&
  (S.cities.isEmpty || S.cities.contains r.city) &&
  (S.genders.isEmpty || S.genders.contains r.gender) &&
  (S.diagnoses.isEmpty || S.diagnoses.contains r.diagnosis) &&
  (S.insurance.isEmpty || S.insurance.contains r.insuranceStatus)

/-- Distinct values in order of first occurrence (`Series.nunique` /
`value_counts` key extraction). -/
def firstKeys {α : Type} [DecidableEq α] : List α → List α
  | [] => []
  | a :: as => a :: (firstKeys as).filter (fun b => b ≠ a)

/-- `Series.nunique`: number of distinct values. -/
def nunique {α : Type} [DecidableEq α] (l : List α) : Nat :=
  (firstKeys l).length

/-- KPI "Total Patients" (line 60): `filtered_df["Patient_ID"].nunique()`. -/
def totalPatients (R : List Record) : Nat :=
  nunique (R.map (fun r => r.patientId))

/-- The chronic-diagnosis set of line 62. -/
def chronicDiags : List String := ["Hypertension", "Diabetes", "Obesity"]

/-- KPI "Chronic Patients %" (lines 62–63): distinct chronic patient ids
over distinct patient ids, times 100, guarded by `if len(filtered_df)`. -/
def chronicPct (R : List Record) : ℚ :=
  if R.length = 0 then 0
  else
    ((totalPatients (R.filter fun r => chronicDiags.contains r.diagnosis) : ℚ) /
      (totalPatients R : ℚ)) * 100

/-- KPI "Missed Appointments %" (line 66): rows with `Status == "Missed"`
over row count, times 100, guarded by `if len(filtered_df)`. -/
def missedPct (R : List Record) : ℚ :=
  if R.length = 0 then 0
  else ((R.filter fun r => r.status == "Missed").length : ℚ) / (R.length : ℚ) * 100

/-- KPI "Total Revenue" (line 69):
`pd.to_numeric(filtered_df["Bill_Amount"], errors="coerce").fillna(0).sum()` —
every missing/non-numeric cell contributes 0. -/
def revenue (R : List Record) : ℚ :=
  (R.map (fun r => r.billAmount.getD 0)).sum

/-- KPI "Avg Satisfaction" (lines 72–73): mean of the non-missing
satisfaction scores; on no data the mean is NaN and the page shows "N/A",
modelled as `none`. -/
def avgSat (R : List Record) : Option ℚ :=
  let xs := R.filterMap (fun r => r.satisfactionScore)
  if xs.isEmpty then none else some (xs.sum / (xs.length : ℚ))

/-- `groupby` key order: pandas sorts group keys ascending. -/
def sortedKeys {α : Type} [LinearOrder α] (l : List α) : List α :=
  l.insertionSort (· ≤ ·)

/-- Chart 1 (line 81): `filtered_df.groupby("Appointment_Date").size()` —
appointment count per distinct date.  pandas `groupby` drops null keys, so
rows whose date is `NaT` appear in no group; keys are sorted ascending. -/
def apptOverTime (R : List Record) : List (Nat × Nat) :=
  (sortedKeys (firstKeys (R.filterMap (fun r => r.appointmentDate)))).map
    (fun d => (d, (R.filter fun r => decide (r.appointmentDate = some d)).length))

/-- Chart 2 (line 91): `filtered_df.groupby("Month")["Bill_Amount"].sum()` —
bill total per month string (never null: a `NaT` date stringifies to
`"NaT"`); pandas `sum` skips missing cells, i.e. they contribute 0. -/
def monthlyRev (R : List Record) : List (String × ℚ) :=
  (sortedKeys (firstKeys (R.map (fun r => monthOf r.appointmentDate)))).map
    (fun m => (m, ((R.filter fun r => decide (monthOf r.appointmentDate = m)).map
      (fun r => r.billAmount.getD 0)).sum))

/-- `Series.value_counts()`: count per distinct value, sorted by count
descending (stable, distinct values taken in order of first occurrence). -/
def valueCounts {α : Type} [DecidableEq α] (key : Record → α) (R : List Record) :
    List (α × Nat) :=
  ((firstKeys (R.map key)).map
    (fun k => (k, (R.filter fun r => decide (key r = k)).length))).insertionSort
    (fun p q => q.2 ≤ p.2)

/-- Chart 3 (line 101): `filtered_df["Diagnosis"].value_counts()`. -/
def diagCt (R : List Record) : List (String × Nat) :=
  valueCounts (fun r => r.diagnosis) R

/-- Chart 4 (line 111): `filtered_df["BMI_Category"].value_counts()`. -/
def bmiCt (R : List Record) : List (String × Nat) :=
  valueCounts bmiCategory R

/-- Chart 5 (line 121): `filtered_df["FollowUp_Required"].value_counts()`. -/
def fuCt (R : List Record) : List (String × Nat) :=
  valueCounts (fun r => r.followUpRequired) R

/-- `Series.idxmax` over a (key, value) table: the row holding the maximum
value, scanning in table order so that on ties the earliest row wins;
`none` on an empty table. -/
def idxmaxPair {α β : Type} [LinearOrder β] : List (α × β) → Option (α × β)
  | [] => none
  | p :: ps =>
    match idxmaxPair ps with
    | none => some p
    | some q => if p.2 < q.2 then some q else some p

/-- Insight of chart 1 (line 85): `appt_over_time[...].idxmax()` key. -/
def peakDay (R : List Record) : Option Nat :=
  (idxmaxPair (apptOverTime R)).map Prod.fst

/-- Insight of chart 2 (line 95): month of maximal revenue. -/
def topMonth (R : List Record) : Option String :=
  (idxmaxPair (monthlyRev R)).map Prod.fst

/-- Insight of chart 3 (line 106): most common diagnosis. -/
def commonDiag (R : List Record) : Option String :=
  (idxmaxPair (diagCt R)).map Prod.fst

/-- Insight of chart 4 (line 116): majority BMI category. -/
def topBmi (R : List Record) : Option String :=
  (idxmaxPair (bmiCt R)).map Prod.fst

/-- Insight of chart 5 (line 126): most frequent follow-up status. -/
def topFu (R : List Record) : Option String :=
  (idxmaxPair (fuCt R)).map Prod.fst

/-- The spec's tie-break mandate (§4.3): the first key, in the
aggregation's own iteration order, whose value is maximal. -/
def firstMaxKey {α β : Type} [LinearOrder β] (l : List (α × β)) : Option α :=
  (l.find? (fun p => l.all (fun q => decide (q.2 ≤ p.2)))).map Prod.fst

/-- Rounding to two decimals, as the `:.2f` display format does. -/
def round2 (q : ℚ) : ℚ := (round (q * 100) : ℤ) / 100

/-! ## Helper lemmas -/

lemma stage_eq (vals : List String) (f : Record → String) (l : List Record) :
    (if vals.isEmpty then l else l.filter fun r => vals.contains (f r))
      = l.filter (fun r => vals.isEmpty || vals.contains (f r)) := by
  cases h : vals.isEmpty <;> simp [h]

/-- The five sequential conditional filters are one filter by the
conjunctive predicate. -/
lemma applyFilters_eq_filter (R : List Record) (S : Selection) :
    applyFilters R S = R.filter (matchesSelection S) := by
  unfold applyFilters
  rw [stage_eq, stage_eq, stage_eq, stage_eq, stage_eq,
    List.filter_filter, List.filter_filter, List.filter_filter, List.filter_filter]
  apply List.filter_congr
  intro r _
  simp only [matchesSelection]
  cases S.doctors.isEmpty || S.doctors.contains r.doctor <;>
    cases S.cities.isEmpty || S.cities.contains r.city <;>
    cases S.genders.isEmpty || S.genders.contains r.gender <;>
    cases S.diagnoses.isEmpty || S.diagnoses.contains r.diagnosis <;>
    cases S.insurance.isEmpty || S.insurance.contains r.insuranceStatus <;> rfl

lemma mem_applyFilters (R : List Record) (S : Selection) (r : Record) :
    r ∈ applyFilters R S ↔ r ∈ R ∧ matchesSelection S r = true := by
  rw [applyFilters_eq_filter, List.mem_filter]

lemma mem_firstKeys {α : Type} [DecidableEq α] (a : α) :
    ∀ l : List α, a ∈ firstKeys l ↔ a ∈ l := by
  intro l
  induction l with
  | nil => simp [firstKeys]
  | cons b l ih =>
    simp only [firstKeys, List.mem_cons, List.mem_filter]
    constructor
    · rintro (rfl | ⟨h, _⟩)
      · exact Or.inl rfl
      · exact Or.inr (ih.mp h)
    · rintro (rfl | h)
      · exact Or.inl rfl
      · by_cases hab : a = b
        · exact Or.inl hab
        · exact Or.inr ⟨ih.mpr h, by simp [hab]⟩

lemma nodup_firstKeys {α : Type} [DecidableEq α] :
    ∀ l : List α, (firstKeys l).Nodup := by
  intro l
  induction l with
  | nil => simp [firstKeys]
  | cons b l ih =>
    simp only [firstKeys, List.nodup_cons]
    refine ⟨?_, ih.filter _⟩
    simp [List.mem_filter]

lemma sum_map_ite_zero {α M : Type} [DecidableEq α] [AddCommMonoid M] (v : M) :
    ∀ (ks : List α) (a : α), a ∉ ks →
      (ks.map (fun k => if a = k then v else 0)).sum = 0 := by
  intro ks
  induction ks with
  | nil => simp
  | cons k ks ih =>
    intro a ha
    have hak : ¬ a = k := fun h => ha (h ▸ List.mem_cons_self k ks)
    have haks : a ∉ ks := fun h => ha (List.mem_cons_of_mem k h)
    simp [hak, ih a haks]

lemma sum_map_ite_mem {α M : Type} [DecidableEq α] [AddCommMonoid M] (v : M) :
    ∀ (ks : List α) (a : α), ks.Nodup → a ∈ ks →
      (ks.map (fun k => if a = k then v else 0)).sum = v := by
  intro ks
  induction ks with
  | nil => intro a _ ha; cases ha
  | cons k ks ih =>
    intro a hnd ha
    rcases List.nodup_cons.mp hnd with ⟨hk, hnd'⟩
    by_cases hak : a = k
    · subst hak
      simp [sum_map_ite_zero v ks a hk]
    · rcases List.mem_cons.mp ha with h | h
      · exact absurd h hak
      · simp [hak, ih a hnd' h]

/-- Partition identity for values: summing a value over each group of a
grouping whose keys are distinct and cover the data equals summing it over
the whole data. -/
lemma sum_group_vals {γ α M : Type} [DecidableEq α] [AddCommMonoid M]
    (key : γ → α) (val : γ → M) :
    ∀ (R : List γ) (ks : List α), ks.Nodup → (∀ r ∈ R, key r ∈ ks) →
      (ks.map (fun k => ((R.filter fun r => decide (key r = k)).map val).sum)).sum
        = (R.map val).sum := by
  intro R
  induction R with
  | nil => intro ks _ _; simp
  | cons r R ih =>
    intro ks hnd hcov
    have hmem : key r ∈ ks := hcov r (List.mem_cons_self r R)
    have hR : ∀ x ∈ R, key x ∈ ks := fun x hx => hcov x (List.mem_cons_of_mem r hx)
    have step : ∀ k : α,
        (((r :: R).filter fun x => decide (key x = k)).map val).sum
          = (if key r = k then val r else 0)
            + ((R.filter fun x => decide (key x = k)).map val).sum := by
      intro k
      by_cases h : key r = k <;> simp [List.filter_cons, h]
    calc (ks.map (fun k => (((r :: R).filter fun x => decide (key x = k)).map val).sum)).sum
        = (ks.map (fun k => (if key r = k then val r else 0)
            + ((R.filter fun x => decide (key x = k)).map val).sum)).sum := by
          exact congrArg List.sum (List.map_congr_left fun k _ => step k)
      _ = (ks.map (fun k => if key r = k then val r else 0)).sum
            + (ks.map (fun k => ((R.filter fun x => decide (key x = k)).map val).sum)).sum := by
          rw [List.sum_map_add]
      _ = val r + (R.map val).sum := by
          rw [sum_map_ite_mem (val r) ks (key r) hnd hmem, ih ks hnd hR]
      _ = ((r :: R).map val).sum := by simp

/-- Partition identity for counts: group sizes of a grouping whose keys are
distinct and cover the data sum to the data's size. -/
lemma sum_map_one {γ : Type} (l : List γ) : (l.map fun _ => (1 : ℕ)).sum = l.length := by
  induction l with
  | nil => rfl
  | cons a l ih => simp [ih, Nat.add_comm]

lemma sum_group_counts {γ α : Type} [DecidableEq α] (key : γ → α)
    (R : List γ) (ks : List α) (hnd : ks.Nodup) (hcov : ∀ r ∈ R, key r ∈ ks) :
    (ks.map (fun k => (R.filter fun r => decide (key r = k)).length)).sum = R.length := by
  calc (ks.map (fun k => (R.filter fun r => decide (key r = k)).length)).sum
      = (ks.map (fun k => ((R.filter fun r => decide (key r = k)).map (fun _ => 1)).sum)).sum := by
        exact congrArg List.sum
          (List.map_congr_left fun k _ => (sum_map_one _).symm)
    _ = (R.map (fun _ => 1)).sum := sum_group_vals key (fun _ => 1) R ks hnd hcov
    _ = R.length := sum_map_one R

lemma idxmaxPair_ne_none {α β : Type} [LinearOrder β] (p : α × β) (ps : List (α × β)) :
    idxmaxPair (p :: ps) ≠ none := by
  simp only [idxmaxPair]
  cases idxmaxPair ps with
  | none => simp
  | some q => by_cases hc : p.2 < q.2 <;> simp [hc]

lemma idxmaxPair_mem {α β : Type} [LinearOrder β] :
    ∀ (l : List (α × β)) (q : α × β), idxmaxPair l = some q → q ∈ l := by
  intro l
  induction l with
  | nil => intro q h; cases h
  | cons p ps ih =>
    intro q h
    cases hm : idxmaxPair ps with
    | none =>
      simp only [idxmaxPair, hm] at h
      cases h
      exact List.mem_cons_self p ps
    | some m =>
      simp only [idxmaxPair, hm] at h
      by_cases hc : p.2 < m.2
      · rw [if_pos hc] at h
        cases h
        exact List.mem_cons_of_mem p (ih q hm)
      · rw [if_neg hc] at h
        cases h
        exact List.mem_cons_self p ps

lemma idxmaxPair_le {α β : Type} [LinearOrder β] :
    ∀ (l : List (α × β)) (q : α × β), idxmaxPair l = some q → ∀ x ∈ l, x.2 ≤ q.2 := by
  intro l
  induction l with
  | nil => intro q _ x hx; cases hx
  | cons p ps ih =>
    intro q h x hx
    cases hm : idxmaxPair ps with
    | none =>
      simp only [idxmaxPair, hm] at h
      cases h
      have hps : ps = [] := by
        cases ps with
        | nil => rfl
        | cons a as => exact absurd hm (idxmaxPair_ne_none a as)
      subst hps
      rcases List.mem_singleton.mp hx with rfl
      exact le_refl _
    | some m =>
      simp only [idxmaxPair, hm] at h
      by_cases hc : p.2 < m.2
      · rw [if_pos hc] at h
        cases h
        rcases List.mem_cons.mp hx with rfl | hx'
        · exact le_of_lt hc
        · exact ih q hm x hx'
      · rw [if_neg hc] at h
        cases h
        rcases List.mem_cons.mp hx with rfl | hx'
        · exact le_refl _
        · exact le_trans (ih m hm x hx') (not_lt.mp hc)

lemma find?_congr_on {α : Type} (p q : α → Bool) :
    ∀ l : List α, (∀ x ∈ l, p x = q x) → l.find? p = l.find? q := by
  intro l
  induction l with
  | nil => intro _; rfl
  | cons a l ih =>
    intro h
    have ha := h a (List.mem_cons_self a l)
    cases hq : q a with
    | true =>
      rw [List.find?_cons_of_pos l (ha.trans hq), List.find?_cons_of_pos l hq]
    | false =>
      rw [List.find?_cons_of_neg l (by rw [ha, hq]; exact Bool.false_ne_true),
        List.find?_cons_of_neg l (by rw [hq]; exact Bool.false_ne_true)]
      exact ih fun x hx => h x (List.mem_cons_of_mem a hx)

/-- `idxmax` picks the first row, in table order, whose value is maximal. -/
lemma idxmaxPair_eq_find? {α β : Type} [LinearOrder β] :
    ∀ l : List (α × β),
      idxmaxPair l = l.find? (fun p => l.all (fun x => decide (x.2 ≤ p.2))) := by
  intro l
  induction l with
  | nil => rfl
  | cons p ps ih =>
    cases hm : idxmaxPair ps with
    | none =>
      have hps : ps = [] := by
        cases ps with
        | nil => rfl
        | cons a as => exact absurd hm (idxmaxPair_ne_none a as)
      subst hps
      simp [idxmaxPair]
    | some q =>
      have hq_mem : q ∈ ps := idxmaxPair_mem ps q hm
      have hq_le : ∀ x ∈ ps, x.2 ≤ q.2 := idxmaxPair_le ps q hm
      by_cases hc : p.2 < q.2
      · have hlhs : idxmaxPair (p :: ps) = some q := by
          simp only [idxmaxPair, hm]
          rw [if_pos hc]
        have hpred : ((p :: ps).all (fun x => decide (x.2 ≤ p.2))) = false := by
          apply Bool.eq_false_iff.mpr
          intro hall
          exact absurd (List.all_eq_true.mp hall q (List.mem_cons_of_mem p hq_mem))
            (by simpa using not_le.mpr hc)
        rw [hlhs, List.find?_cons_of_neg _ (by rw [hpred]; exact Bool.false_ne_true)]
        have hcongr : ps.find? (fun x => (p :: ps).all (fun y => decide (y.2 ≤ x.2)))
            = ps.find? (fun x => ps.all (fun y => decide (y.2 ≤ x.2))) := by
          apply find?_congr_on
          intro x hx
          cases hpx : ps.all (fun y => decide (y.2 ≤ x.2)) with
          | true =>
            have hqx : q.2 ≤ x.2 := by
              simpa using List.all_eq_true.mp hpx q hq_mem
            have hpx2 : p.2 ≤ x.2 := le_of_lt (lt_of_lt_of_le hc hqx)
            simp [List.all_cons, hpx2, hpx]
          | false => simp [List.all_cons, hpx]
        rw [hcongr, ← ih, hm]
      · have hqp : q.2 ≤ p.2 := not_lt.mp hc
        have hlhs : idxmaxPair (p :: ps) = some p := by
          simp only [idxmaxPair, hm]
          rw [if_neg hc]
        have hpred : ((p :: ps).all (fun x => decide (x.2 ≤ p.2))) = true := by
          apply List.all_eq_true.mpr
          intro x hx
          rcases List.mem_cons.mp hx with rfl | hx'
          · simp
          · simpa using le_trans (hq_le x hx') hqp
        rw [hlhs]
        exact (List.find?_cons_of_pos ps hpred).symm

lemma contains_iff_mem (l : List String) (a : String) : l.contains a = true ↔ a ∈ l := by
  simp [List.elem_eq_mem]

/-! ## Concrete sample data -/

/-- Scenario A, row 1: a Hypertension visit. -/
def rA1 : Record :=
  ⟨"P1", some 10, "DrA", "CityX", "F", "Hypertension", "Insured", "Completed",
    some 100, some 4, "Yes", some 22⟩

/-- Scenario A, row 2: a Flu visit. -/
def rA2 : Record :=
  ⟨"P2", some 11, "DrB", "CityY", "M", "Flu", "Uninsured", "Missed",
    some 50, some 3, "No", some 27⟩

/-- Scenario A, row 3: a Diabetes visit. -/
def rA3 : Record :=
  ⟨"P3", some 12, "DrA", "CityX", "F", "Diabetes", "Insured", "Completed",
    some 75, none, "Yes", some 31⟩

/-- Spec §8 Scenario A: three rows with diagnoses Hypertension, Flu,
Diabetes. -/
def scenarioA : List Record := [rA1, rA2, rA3]

/-- A row whose appointment date failed to parse (`NaT`). -/
def rNullDate : Record :=
  ⟨"P9", none, "DrA", "CityX", "M", "Flu", "Insured", "Completed",
    some 10, none, "No", none⟩

/-- A row with no bill amount. -/
def rNoBill : Record :=
  ⟨"P7", some 5, "DrC", "CityZ", "F", "Flu", "Insured", "Completed",
    none, none, "No", none⟩

/-- The selection with every multiselect left empty. -/
def emptySel : Selection := ⟨[], [], [], [], []⟩

/-- A selection of a single doctor no record has. -/
def selDoctorB : Selection := ⟨["DrB"], [], [], [], []⟩

/-! ## Claim theorems -/

/-- C2: KPI degeneracy — on the empty filtered set, Total Patients is 0,
Chronic Patients % is 0, Missed Appointments % is 0, Total Revenue is 0,
and Average Satisfaction is the "N/A" marker; none of them raises. -/
theorem C2_kpi_degeneracy :
    totalPatients [] = 0 ∧ chronicPct [] = 0 ∧ missedPct [] = 0
      ∧ revenue [] = 0 ∧ avgSat [] = none :=
  ⟨rfl, rfl, rfl, rfl, rfl⟩

/-- C3: `bmi_bucket` is a total deterministic function mapping a missing
bmi to Unknown, bmi < 18.5 to Underweight, 18.5 ≤ bmi < 25 to Normal,
25 ≤ bmi < 30 to Overweight and bmi ≥ 30 to Obesity; the boundaries 18.5,
25 and 30 land in the upper bucket. -/
theorem C3_bmi_bucketing (b : ℚ) :
    bmi_bucket none = "Unknown"
      ∧ (b < 18.5 → bmi_bucket (some b) = "Underweight")
      ∧ (18.5 ≤ b → b < 25 → bmi_bucket (some b) = "Normal")
      ∧ (25 ≤ b → b < 30 → bmi_bucket (some b) = "Overweight")
      ∧ (30 ≤ b → bmi_bucket (some b) = "Obesity")
      ∧ bmi_bucket (some 18.5) = "Normal"
      ∧ bmi_bucket (some 25) = "Overweight"
      ∧ bmi_bucket (some 30) = "Obesity" := by
  have hu : ∀ x : ℚ, x < 18.5 → bmi_bucket (some x) = "Underweight" := by
    intro x h
    simp only [bmi_bucket]
    rw [if_pos h]
  have hn : ∀ x : ℚ, 18.5 ≤ x → x < 25 → bmi_bucket (some x) = "Normal" := by
    intro x h1 h2
    simp only [bmi_bucket]
    rw [if_neg (not_lt.mpr h1), if_pos h2]
  have ho : ∀ x : ℚ, 25 ≤ x → x < 30 → bmi_bucket (some x) = "Overweight" := by
    intro x h1 h2
    simp only [bmi_bucket]
    rw [if_neg (not_lt.mpr (le_trans (by norm_num) h1)), if_neg (not_lt.mpr h1), if_pos h2]
  have hob : ∀ x : ℚ, 30 ≤ x → bmi_bucket (some x) = "Obesity" := by
    intro x h1
    simp only [bmi_bucket]
    rw [if_neg (not_lt.mpr (le_trans (by norm_num) h1)),
      if_neg (not_lt.mpr (le_trans (by norm_num) h1)), if_neg (not_lt.mpr h1)]
  exact ⟨rfl, hu b, hn b, ho b, hob b, hn 18.5 (le_refl _) (by norm_num),
    ho 25 (le_refl _) (by norm_num), hob 30 (le_refl _)⟩

theorem C3_bmi_bucketing_witness :
    bmi_bucket (some 17) = "Underweight" ∧ bmi_bucket (some 20) = "Normal"
      ∧ bmi_bucket (some 27) = "Overweight" ∧ bmi_bucket (some 31) = "Obesity" :=
  ⟨(C3_bmi_bucketing 17).2.1 (by norm_num),
    (C3_bmi_bucketing 20).2.2.1 (by norm_num) (by norm_num),
    (C3_bmi_bucketing 27).2.2.2.1 (by norm_num) (by norm_num),
    (C3_bmi_bucketing 31).2.2.2.2.1 (by norm_num)⟩

/-- C10: `bmi_bucket` has no non-negativity check — every bmi strictly
below 18.5, including 0 and negative values, is Underweight, and every
input lands in exactly one of the five categories. -/
theorem C10_bmi_total (b : Option ℚ) (x : ℚ) :
    (x < 18.5 → bmi_bucket (some x) = "Underweight")
      ∧ bmi_bucket (some 0) = "Underweight"
      ∧ bmi_bucket (some (-5)) = "Underweight"
      ∧ (bmi_bucket b = "Unknown" ∨ bmi_bucket b = "Underweight"
          ∨ bmi_bucket b = "Normal" ∨ bmi_bucket b = "Overweight"
          ∨ bmi_bucket b = "Obesity") := by
  have hu : ∀ x : ℚ, x < 18.5 → bmi_bucket (some x) = "Underweight" := by
    intro x h
    simp only [bmi_bucket]
    rw [if_pos h]
  refine ⟨hu x, hu 0 (by norm_num), hu (-5) (by norm_num), ?_⟩
  · cases b with
    | none => exact Or.inl rfl
    | some x =>
      simp only [bmi_bucket]
      split_ifs <;> tauto

theorem C10_bmi_total_witness : bmi_bucket (some (-1)) = "Underweight" :=
  (C10_bmi_total none (-1)).1 (by norm_num)

/-- C7: Total Revenue sums bill amounts with every missing/non-numeric
cell contributing 0; equivalently it is the sum of the present numeric
values, and when every bill is missing it is 0. -/
theorem C7_revenue_fillna (R : List Record) :
    revenue R = (R.filterMap (fun r => r.billAmount)).sum
      ∧ ((∀ r ∈ R, r.billAmount = none) → revenue R = 0) := by
  have h1 : ∀ L : List Record,
      (L.map (fun r => r.billAmount.getD 0)).sum
        = (L.filterMap (fun r => r.billAmount)).sum := by
    intro L
    induction L with
    | nil => rfl
    | cons r L ih =>
      cases hb : r.billAmount <;> simp [List.filterMap_cons, hb, ih]
  refine ⟨h1 R, ?_⟩
  intro hall
  rw [revenue, h1 R, List.filterMap_eq_nil_iff.mpr hall]
  rfl

theorem C7_revenue_fillna_witness :
    revenue [rNoBill] = (([rNoBill] : List Record).filterMap (fun r => r.billAmount)).sum
      ∧ revenue [rNoBill] = 0 :=
  ⟨(C7_revenue_fillna [rNoBill]).1, (C7_revenue_fillna [rNoBill]).2 (by decide)⟩

/-- C8: filtering is idempotent — applying the same selection twice gives
the same list as applying it once. -/
theorem C8_filter_idempotent (R : List Record) (S : Selection) :
    applyFilters (applyFilters R S) S = applyFilters R S := by
  simp only [applyFilters_eq_filter]
  rw [List.filter_filter]
  exact List.filter_congr fun r _ => Bool.and_self _

lemma matchesSelection_iff (S : Selection) (r : Record) :
    matchesSelection S r = true ↔
      (S.doctors ≠ [] → r.doctor ∈ S.doctors)
        ∧ (S.cities ≠ [] → r.city ∈ S.cities)
        ∧ (S.genders ≠ [] → r.gender ∈ S.genders)
        ∧ (S.diagnoses ≠ [] → r.diagnosis ∈ S.diagnoses)
        ∧ (S.insurance ≠ [] → r.insuranceStatus ∈ S.insurance) := by
  simp only [matchesSelection, Bool.and_eq_true, Bool.or_eq_true, List.isEmpty_iff,
    contains_iff_mem, and_assoc]
  constructor
  · rintro ⟨h1, h2, h3, h4, h5⟩
    exact ⟨fun hn => (or_iff_not_imp_left.mp h1) hn,
      fun hn => (or_iff_not_imp_left.mp h2) hn,
      fun hn => (or_iff_not_imp_left.mp h3) hn,
      fun hn => (or_iff_not_imp_left.mp h4) hn,
      fun hn => (or_iff_not_imp_left.mp h5) hn⟩
  · rintro ⟨h1, h2, h3, h4, h5⟩
    exact ⟨or_iff_not_imp_left.mpr h1, or_iff_not_imp_left.mpr h2,
      or_iff_not_imp_left.mpr h3, or_iff_not_imp_left.mpr h4,
      or_iff_not_imp_left.mpr h5⟩

/-- C1: a record is kept by the filter exactly when, for each of the five
categorical columns whose selection is non-empty, its value for that
column is among the selected values; empty selections impose no
constraint, and columns combine conjunctively. -/
theorem C1_filter_semantics (R : List Record) (S : Selection) (r : Record) :
    r ∈ applyFilters R S ↔
      r ∈ R ∧ (S.doctors ≠ [] → r.doctor ∈ S.doctors)
        ∧ (S.cities ≠ [] → r.city ∈ S.cities)
        ∧ (S.genders ≠ [] → r.gender ∈ S.genders)
        ∧ (S.diagnoses ≠ [] → r.diagnosis ∈ S.diagnoses)
        ∧ (S.insurance ≠ [] → r.insuranceStatus ∈ S.insurance) := by
  rw [mem_applyFilters, matchesSelection_iff]

lemma length_filter_mono {α : Type} (p q : α → Bool) :
    ∀ l : List α, (∀ a ∈ l, p a = true → q a = true) →
      (l.filter p).length ≤ (l.filter q).length := by
  intro l
  induction l with
  | nil => intro _; exact le_refl _
  | cons a l ih =>
    intro h
    have hl := ih fun x hx => h x (List.mem_cons_of_mem a hx)
    cases hp : p a with
    | true =>
      rw [List.filter_cons_of_pos hp,
        List.filter_cons_of_pos (h a (List.mem_cons_self a l) hp)]
      exact Nat.succ_le_succ hl
    | false =>
      rw [List.filter_cons_of_neg (by rw [hp]; exact Bool.false_ne_true)]
      cases hq : q a with
      | true =>
        rw [List.filter_cons_of_pos hq]
        exact le_trans hl (Nat.le_succ _)
      | false =>
        rw [List.filter_cons_of_neg (by rw [hq]; exact Bool.false_ne_true)]
        exact hl

/-- C9 counterexample: on a one-row table whose doctor is DrA, the empty
selection keeps the row, but adding the value DrB to the (empty) doctor
selection drops it — so extending a selection set can decrease the row
count. -/
theorem C9_monotonicity_cex :
    ¬ ((applyFilters [rA1] emptySel).length ≤ (applyFilters [rA1] selDoctorB).length) := by
  decide

/-- C9 amended: adding one more value to a column's *already non-empty*
selected value set never decreases the number of filtered rows.  (When the
column's selection is empty it imposes no constraint, so adding a first
value can only shrink the result, as the counterexample shows.) -/
theorem C9_monotonicity (R : List Record) (S : Selection) (v : String) :
    (S.doctors ≠ [] → (applyFilters R S).length
        ≤ (applyFilters R ⟨v :: S.doctors, S.cities, S.genders, S.diagnoses, S.insurance⟩).length)
      ∧ (S.cities ≠ [] → (applyFilters R S).length
        ≤ (applyFilters R ⟨S.doctors, v :: S.cities, S.genders, S.diagnoses, S.insurance⟩).length)
      ∧ (S.genders ≠ [] → (applyFilters R S).length
        ≤ (applyFilters R ⟨S.doctors, S.cities, v :: S.genders, S.diagnoses, S.insurance⟩).length)
      ∧ (S.diagnoses ≠ [] → (applyFilters R S).length
        ≤ (applyFilters R ⟨S.doctors, S.cities, S.genders, v :: S.diagnoses, S.insurance⟩).length)
      ∧ (S.insurance ≠ [] → (applyFilters R S).length
        ≤ (applyFilters R ⟨S.doctors, S.cities, S.genders, S.diagnoses, v :: S.insurance⟩).length) := by
  have key : ∀ (S' : Selection),
      (∀ r : Record, matchesSelection S r = true → matchesSelection S' r = true) →
      (applyFilters R S).length ≤ (applyFilters R S').length := by
    intro S' himp
    rw [applyFilters_eq_filter, applyFilters_eq_filter]
    exact length_filter_mono _ _ R fun r _ h => himp r h
  have hcons : ∀ (l : List String) (a : String), l ≠ [] →
      ((l.isEmpty || l.contains a) = true → ((v :: l).isEmpty || (v :: l).contains a) = true) := by
    intro l a hl h
    rcases Bool.or_eq_true_iff.mp h with h | h
    · exact absurd (List.isEmpty_iff.mp h) hl
    · refine Bool.or_eq_true_iff.mpr (Or.inr ?_)
      exact (contains_iff_mem _ _).mpr (List.mem_cons_of_mem v ((contains_iff_mem _ _).mp h))
  refine ⟨fun hd => key _ ?_, fun hd => key _ ?_, fun hd => key _ ?_,
    fun hd => key _ ?_, fun hd => key _ ?_⟩ <;>
    · intro r h
      simp only [matchesSelection, Bool.and_eq_true, and_assoc] at h ⊢
      obtain ⟨h1, h2, h3, h4, h5⟩ := h
      refine ⟨?_, ?_, ?_, ?_, ?_⟩ <;>
        first
          | assumption
          | exact hcons _ _ hd (by assumption)

theorem C9_monotonicity_witness :
    ["DrB"] ≠ ([] : List String)
      ∧ (applyFilters [rA1] selDoctorB).length
        ≤ (applyFilters [rA1] ⟨"DrA" :: ["DrB"], [], [], [], []⟩).length :=
  ⟨by decide, ((C9_monotonicity [rA1] selDoctorB "DrA").1 (by decide))⟩

lemma sum_valueCounts {α : Type} [DecidableEq α] (key : Record → α) (R : List Record) :
    ((valueCounts key R).map Prod.snd).sum = R.length := by
  unfold valueCounts
  have hperm :
      (((((firstKeys (R.map key)).map
          (fun k => (k, (R.filter fun r => decide (key r = k)).length))).insertionSort
          (fun p q => q.2 ≤ p.2)).map Prod.snd)).sum
        = ((((firstKeys (R.map key)).map
            (fun k => (k, (R.filter fun r => decide (key r = k)).length))).map Prod.snd)).sum :=
    ((List.perm_insertionSort _ _).map Prod.snd).sum_eq
  rw [hperm, List.map_map]
  have : (Prod.snd ∘ fun k => (k, (R.filter fun r => decide (key r = k)).length))
      = fun k => (R.filter fun r => decide (key r = k)).length := rfl
  rw [this]
  exact sum_group_counts key R (firstKeys (R.map key)) (nodup_firstKeys _)
    fun r hr => (mem_firstKeys _ _).mpr (List.mem_map_of_mem key hr)

lemma sum_monthlyRev (R : List Record) :
    ((monthlyRev R).map Prod.snd).sum = revenue R := by
  unfold monthlyRev revenue
  rw [List.map_map]
  have : (Prod.snd ∘ fun m => (m, ((R.filter fun r =>
      decide (monthOf r.appointmentDate = m)).map (fun r => r.billAmount.getD 0)).sum))
        = fun m => ((R.filter fun r =>
          decide (monthOf r.appointmentDate = m)).map (fun r => r.billAmount.getD 0)).sum := rfl
  rw [this]
  refine sum_group_vals (fun r => monthOf r.appointmentDate)
    (fun r => r.billAmount.getD 0) R _ ?_ ?_
  · exact (List.perm_insertionSort _ _).nodup_iff.mpr (nodup_firstKeys _)
  · intro r hr
    exact (List.perm_insertionSort _ _).mem_iff.mpr
      ((mem_firstKeys _ _).mpr
        (List.mem_map_of_mem (fun r => monthOf r.appointmentDate) hr))

lemma sum_apptOverTime (R : List Record) :
    ((apptOverTime R).map Prod.snd).sum
      = (R.filter fun r => r.appointmentDate.isSome).length := by
  unfold apptOverTime
  rw [List.map_map]
  have h1 : (Prod.snd ∘ fun d => (d, (R.filter fun r =>
      decide (r.appointmentDate = some d)).length))
        = fun d => (R.filter fun r => decide (r.appointmentDate = some d)).length := rfl
  rw [h1]
  set R' := R.filter fun r => r.appointmentDate.isSome with hR'
  set ks := sortedKeys (firstKeys (R.filterMap fun r => r.appointmentDate)) with hks
  have h2 : ∀ d : Nat, R.filter (fun r => decide (r.appointmentDate = some d))
      = R'.filter (fun r => decide (r.appointmentDate = some d)) := by
    intro d
    rw [hR', List.filter_filter]
    apply List.filter_congr
    intro r _
    cases hd : r.appointmentDate <;> simp [hd]
  have h3 : (ks.map fun d => (R.filter fun r => decide (r.appointmentDate = some d)).length)
      = (ks.map some).map fun k => (R'.filter fun r => decide (r.appointmentDate = k)).length := by
    rw [List.map_map]
    exact List.map_congr_left fun d _ => by rw [h2 d]; rfl
  rw [h3]
  refine sum_group_counts (fun r => r.appointmentDate) R' (ks.map some) ?_ ?_
  · exact ((List.perm_insertionSort _ _).nodup_iff.mpr (nodup_firstKeys _)).map
      (Option.some_injective Nat)
  · intro r hr
    rw [hR'] at hr
    have hs : r.appointmentDate.isSome = true := (List.mem_filter.mp hr).2
    obtain ⟨d, hd⟩ := Option.isSome_iff_exists.mp hs
    show r.appointmentDate ∈ (ks.map some)
    rw [hd]
    apply List.mem_map_of_mem
    exact (List.perm_insertionSort _ _).mem_iff.mpr ((mem_firstKeys _ _).mpr
      (List.mem_filterMap.mpr ⟨r, List.mem_of_mem_filter hr, hd⟩))

/-- C4 counterexample: on a one-row table whose appointment date is null
(`NaT`), the appointments-per-date grouping is empty (pandas `groupby`
drops null keys), so its counts sum to 0 while the filtered row count
is 1. -/
theorem C4_totals_cex :
    ((apptOverTime [rNullDate]).map Prod.snd).sum ≠ ([rNullDate] : List Record).length := by
  decide

/-- C4 amended: the counts of the diagnosis, BMI-category and follow-up
groupings sum to the filtered row count; the appointments-per-date counts
sum to the number of rows with a non-null date (rows with `NaT` dates are
dropped by the grouping); the monthly revenue sums equal the Total Revenue
KPI. -/
theorem C4_totals_reconcile (R : List Record) :
    ((diagCt R).map Prod.snd).sum = R.length
      ∧ ((bmiCt R).map Prod.snd).sum = R.length
      ∧ ((fuCt R).map Prod.snd).sum = R.length
      ∧ ((apptOverTime R).map Prod.snd).sum
        = (R.filter fun r => r.appointmentDate.isSome).length
      ∧ ((monthlyRev R).map Prod.snd).sum = revenue R :=
  ⟨sum_valueCounts _ R, sum_valueCounts _ R, sum_valueCounts _ R,
    sum_apptOverTime R, sum_monthlyRev R⟩

/-- C5: every insight argmax selects the key that comes first in its
aggregation's own iteration order among those attaining the maximal
value — `idxmax` scans the aggregation in order and stops at the first
maximum, so ties are broken deterministically in favor of the earlier
key. -/
theorem C5_insight_tiebreak (R : List Record) :
    peakDay R = firstMaxKey (apptOverTime R)
      ∧ topMonth R = firstMaxKey (monthlyRev R)
      ∧ commonDiag R = firstMaxKey (diagCt R)
      ∧ topBmi R = firstMaxKey (bmiCt R)
      ∧ topFu R = firstMaxKey (fuCt R) :=
  ⟨congrArg (Option.map Prod.fst) (idxmaxPair_eq_find? _),
    congrArg (Option.map Prod.fst) (idxmaxPair_eq_find? _),
    congrArg (Option.map Prod.fst) (idxmaxPair_eq_find? _),
    congrArg (Option.map Prod.fst) (idxmaxPair_eq_find? _),
    congrArg (Option.map Prod.fst) (idxmaxPair_eq_find? _)⟩

/-- C6: Chronic Patients % is the distinct patient count among records
with a chronic diagnosis (Hypertension, Diabetes or Obesity), divided by
the distinct patient count of the whole filtered set, times 100; on the
three-row Scenario A dataset with no filters it displays as 66.67%. -/
theorem C6_chronic_pct :
    (∀ R : List Record, R ≠ [] →
      chronicPct R = (nunique ((R.filter fun r =>
          decide (r.diagnosis ∈ ["Hypertension", "Diabetes", "Obesity"])).map
          (fun r => r.patientId)) : ℚ)
        / (nunique (R.map fun r => r.patientId) : ℚ) * 100)
      ∧ round2 (chronicPct scenarioA) = 6667 / 100 := by
  constructor
  · intro R hR
    have hpred : (R.filter fun r => chronicDiags.contains r.diagnosis)
        = R.filter fun r => decide (r.diagnosis ∈ ["Hypertension", "Diabetes", "Obesity"]) := by
      apply List.filter_congr
      intro r _
      rw [chronicDiags]
      exact List.elem_eq_mem _ _
    rw [chronicPct, if_neg (fun h => hR (List.length_eq_zero.mp h)), hpred]
    rfl
  · have h1 : totalPatients (scenarioA.filter fun r => chronicDiags.contains r.diagnosis) = 2 :=
      rfl
    have h2 : totalPatients scenarioA = 3 := rfl
    have h : chronicPct scenarioA = 200 / 3 := by
      rw [chronicPct, if_neg (by decide : ¬ scenarioA.length = 0), h1, h2]
      norm_num
    rw [round2, h, round_eq]
    norm_num

theorem C6_chronic_pct_witness :
    chronicPct scenarioA
      = (nunique ((scenarioA.filter fun r =>
          decide (r.diagnosis ∈ ["Hypertension", "Diabetes", "Obesity"])).map
          (fun r => r.patientId)) : ℚ)
        / (nunique (scenarioA.map fun r => r.patientId) : ℚ) * 100 :=
  C6_chronic_pct.1 scenarioA (by simp [scenarioA])

end HealthDash
